import Mathlib

/-! Two-tier keyed storage of `kjushka/microservice`.

A shallow embedding of the storage packages of the repository

* `internal/storage/storage.go`                  (the `Storage` interface),
* `internal/storage/cache/cache.go`              (the redis-backed cache store),
* `internal/storage/database/database.go`        (the unsharded SQL store),
* `internal/storage/sharding/sharding.go`        (the sharded SQL store),
* `internal/storage/storage-with-cache/storage_with_cache.go` (the tiered store),
* `internal/storage/serializer/serializer.go`    (the msgpack serializer),
* `internal/config/config.go`                    (the configuration loader),
* `internal/errgroup/errgroup.go`                (the fan-out helper).

Conventions of the embedding.

* A Go `error` result is an `Option GoError`; `none` is the `nil` error.
* Backends owned by third-party libraries (the go-redis client, `sqlx`, the
  go-pg sharding cluster, the msgpack codec) are parameters: records of
  state-passing functions over an arbitrary backend state.
* A destination (`dest any`) is a `GoAny`; a call that writes through the
  pointer returns the destination as it is after the call.
* Every store threads a world that also records, oldest first, the calls made
  on the backend, so that "is not called" is a statement about that record.
* A call that may panic ends in an `Outcome`; the world it leaves behind is
  returned next to it.
* `context.Context` and the tracing spans are observational and are left out.
-/

namespace Microservice

/-- Byte strings (`[]byte`), one natural number below 256 per byte. -/
abbrev Bytes := List Nat

/-- Go error values, by dynamic type.  `redisError` is go-redis'
`proto.RedisError` (a string type, compared by value), `errorString` is what
`errors.New` and `fmt.Errorf` without the wrapping verb build, and `external`
stands for an error value made by another library (`database/sql`, the network
stack, msgpack). -/
inductive GoError where
  | redisError (msg : String)
  | errorString (msg : String)
  | external (msg : String)
  deriving DecidableEq, Repr

/-- The method `Error()` of an error value: its message. -/
def GoError.Error : GoError → String
  | .redisError msg => msg
  | .errorString msg => msg
  | .external msg => msg

/-- The sentinel `redis.Nil`, that is `proto.RedisError("redis: nil")`. -/
def redis.Nil : GoError := .redisError "redis: nil"

/-- The value `errors.New(msg)`. -/
def errors.New (msg : String) : GoError := .errorString msg

/-- How a call ends: it returns a value, or it panics with a (non-nil) panic
value, kept here as the text `%v` prints for it. -/
inductive Outcome (α : Type) where
  | ret (a : α)
  | panic (msg : String)
  deriving DecidableEq, Repr

/-- Values of Go type `any` that are passed as destinations: a pointer to a
cell holding a value (or still unset), or a slice of such values (what a
`[]any` becomes when it is itself passed where an `any` is expected). -/
inductive GoAny (V : Type) where
  | ptr (cell : Option V)
  | slice (elems : List (GoAny V))

/-- The msgpack codec behind `serializer.MessagePackSerializer`.  `Encode`
returns the bytes written to the buffer or the encoder's error; `Decode`
returns the error (a recovered panic included) and the destination after the
attempt. -/
structure MessagePackSerializer (V : Type) where
  Encode : V → Except GoError Bytes
  Decode : Bytes → GoAny V → Option GoError × GoAny V

/-! ## The serializer (`internal/storage/serializer/serializer.go`) -/

/-- The library `github.com/vmihailenco/msgpack/v5` with the options the
source sets on it.  `Encode` is `enc.Encode(value)` after the five encoder
options, given by the bytes written or the error; `Decode` is
`dec.Decode(destination)` after the two decoder options, which may return an
error or panic, given with the destination as the attempt left it. -/
structure msgpack.Library (V : Type) where
  Encode : V → Except GoError Bytes
  Decode : Bytes → GoAny V → Outcome (Option GoError) × GoAny V

/-- The method `(*MessagePackSerializer).Encode`: the result of the
library's encoder is returned as it is. -/
def serializer.Encode {V : Type} (lib : msgpack.Library V) (value : V) :
    Except GoError Bytes :=
  lib.Encode value

/-- The method `(*MessagePackSerializer).Decode`.  The deferred function
turns a panic of the library into the error "cannot decode to destination: "
followed by the panic value; an error of the library is returned as it is. -/
def serializer.Decode {V : Type} (lib : msgpack.Library V) (r : Bytes)
    (destination : GoAny V) : Option GoError × GoAny V :=
  let out := lib.Decode r destination
  match out.1 with
  | .panic panicErr =>
    (some (.errorString ("cannot decode to destination: " ++ panicErr)), out.2)
  | .ret (some err) => (some err, out.2)
  | .ret none => (none, out.2)

/-- The function `NewMessagePackSerializer`, over the library. -/
def NewMessagePackSerializer {V : Type} (lib : msgpack.Library V) :
    MessagePackSerializer V :=
  ⟨serializer.Encode lib, serializer.Decode lib⟩

/-! ## The `Storage` interface (`internal/storage/storage.go`) -/

/-- The interface `storage.Storage` over a world `σ`. -/
structure Storage (σ V : Type) where
  Get : String → String → GoAny V → σ → Option GoError × GoAny V × σ
  GetMany : List String → String → List (GoAny V) → σ →
    Option GoError × List (GoAny V) × σ
  Save : String → V → String → σ → Option GoError × σ
  Delete : String → String → σ → Option GoError × σ

/-! ## The cache store (`internal/storage/cache/cache.go`) -/

/-- The commands of `*redis.Client` the cache store uses, over a backend
state `ρ`: `Get(key).Bytes()`, `Set(key, value, expiration).Err()` and
`Del(key).Err()`. -/
structure RedisClient (ρ : Type) where
  Get : String → ρ → Except GoError Bytes × ρ
  Set : String → Bytes → Nat → ρ → Option GoError × ρ
  Del : String → ρ → Option GoError × ρ

/-- A command sent to the redis backend. -/
inductive RedisCmd where
  | get (key : String)
  | set (key : String) (value : Bytes) (expiration : Nat)
  | del (key : String)
  deriving DecidableEq, Repr

/-- The world of the cache store: the backend state and the commands sent. -/
structure RedisWorld (ρ : Type) where
  backend : ρ
  cmds : List RedisCmd

/-- The struct `cache`. -/
structure cache (ρ V : Type) where
  redisClient : RedisClient ρ
  serializer : MessagePackSerializer V
  expireTime : Nat

/-- The namespaced key `fmt.Sprintf("%s-%s", key, table)` that `Get`, `Save`
and `Delete` of the cache store compute first. -/
def cache.effectiveKey (key table : String) : String :=
  key ++ "-" ++ table

/-- The method `(*cache).Get`. -/
def cache.Get {ρ V : Type} (c : cache ρ V) (key table : String) (dest : GoAny V)
    (w : RedisWorld ρ) : Option GoError × GoAny V × RedisWorld ρ :=
  let key := key ++ "-" ++ table
  let r := c.redisClient.Get key w.backend
  let w1 : RedisWorld ρ := ⟨r.2, w.cmds ++ [RedisCmd.get key]⟩
  match r.1 with
  | .error err => (some (.errorString ("failed get from redis: " ++ err.Error)), dest, w1)
  | .ok encoded =>
    let d := c.serializer.Decode encoded dest
    match d.1 with
    | some err => (some (.errorString ("failed decoding: " ++ err.Error)), d.2, w1)
    | none => (none, d.2, w1)

/-- The loop of `(*cache).GetMany`, run after the length check: `keys[i]` is
fetched into `dest[i]` for i = 0, 1, ... and the first failure returns.  The
two lists are walked together; the loop is only entered with lists of equal
length, so the index `dest[i]` is always in range. -/
def cache.GetMany.loop {ρ V : Type} (c : cache ρ V) (table : String) :
    List String → List (GoAny V) → RedisWorld ρ →
    Option GoError × List (GoAny V) × RedisWorld ρ
  | key :: keys, d :: ds, w =>
    let r := c.Get key table d w
    match r.1 with
    | some err =>
      (some (.errorString ("failed get item with key '" ++ key ++ "': " ++ err.Error)),
        r.2.1 :: ds, r.2.2)
    | none =>
      let rest := cache.GetMany.loop c table keys ds r.2.2
      (rest.1, r.2.1 :: rest.2.1, rest.2.2)
  | _, ds, w => (none, ds, w)

/-- The method `(*cache).GetMany`. -/
def cache.GetMany {ρ V : Type} (c : cache ρ V) (keys : List String) (table : String)
    (dest : List (GoAny V)) (w : RedisWorld ρ) :
    Option GoError × List (GoAny V) × RedisWorld ρ :=
  if keys.length ≠ dest.length then
    (some (errors.New "len of keys not equal len of dest"), dest, w)
  else
    cache.GetMany.loop c table keys dest w

/-- The method `(*cache).Save`. -/
def cache.Save {ρ V : Type} (c : cache ρ V) (key : String) (data : V) (table : String)
    (w : RedisWorld ρ) : Option GoError × RedisWorld ρ :=
  let key := key ++ "-" ++ table
  match c.serializer.Encode data with
  | .error err => (some (.errorString ("failed encode data: " ++ err.Error)), w)
  | .ok buf =>
    let r := c.redisClient.Set key buf c.expireTime w.backend
    let w1 : RedisWorld ρ := ⟨r.2, w.cmds ++ [RedisCmd.set key buf c.expireTime]⟩
    match r.1 with
    | some err => (some (.errorString ("failed set data to redis: " ++ err.Error)), w1)
    | none => (none, w1)

/-- The method `(*cache).Delete`. -/
def cache.Delete {ρ V : Type} (c : cache ρ V) (key table : String)
    (w : RedisWorld ρ) : Option GoError × RedisWorld ρ :=
  let key := key ++ "-" ++ table
  let r := c.redisClient.Del key w.backend
  let w1 : RedisWorld ρ := ⟨r.2, w.cmds ++ [RedisCmd.del key]⟩
  match r.1 with
  | some err => (some (.errorString ("failed remove from redis: " ++ err.Error)), w1)
  | none => (none, w1)

/-- The cache store seen through the interface `cache.Cache`. -/
def cache.toStorage {ρ V : Type} (c : cache ρ V) : Storage (RedisWorld ρ) V where
  Get := c.Get
  GetMany := c.GetMany
  Save := c.Save
  Delete := c.Delete

/-! ## The fan-out helper (`internal/errgroup/errgroup.go`) -/

/-- The result of `(*Group).Wait` given the results of the functions started
with `Go`, in the order in which they finished: the first non-nil error, and
nil when there is none. -/
def errgroup.Wait : List (Option GoError) → Option GoError
  | [] => none
  | some err :: _ => some err
  | none :: rest => errgroup.Wait rest

/-! ## The tiered store (`internal/storage/storage-with-cache`) -/

/-- The two tiers behind the tiered store. -/
inductive Tier where
  | cache
  | db
  deriving DecidableEq, Repr

/-- The methods of the `Storage` interface. -/
inductive Method where
  | Get
  | GetMany
  | Save
  | Delete
  deriving DecidableEq, Repr

/-- A call made by the tiered store on one of its tiers. -/
structure TierCall where
  tier : Tier
  method : Method
  keys : List String
  table : String
  deriving DecidableEq, Repr

/-- The world of the tiered store: the world of each tier and the calls made
on the tiers, oldest first. -/
structure TierWorld (σc σd : Type) where
  cache : σc
  db : σd
  calls : List TierCall

/-- The struct `storageWithCache`. -/
structure storageWithCache (σc σd V : Type) where
  cache : Storage σc V
  db : Storage σd V

/-- The function `NewStorage`. -/
def NewStorage {σc σd V : Type} (cache : Storage σc V) (db : Storage σd V) :
    storageWithCache σc σd V :=
  ⟨cache, db⟩

/-- The method `(*storageWithCache).Get`. -/
def storageWithCache.Get {σc σd V : Type} (s : storageWithCache σc σd V)
    (key table : String) (dest : GoAny V) (w : TierWorld σc σd) :
    Option GoError × GoAny V × TierWorld σc σd :=
  let r := s.cache.Get key table dest w.cache
  let w1 : TierWorld σc σd := ⟨r.2.2, w.db, w.calls ++ [⟨.cache, .Get, [key], table⟩]⟩
  if r.1 ≠ none ∧ r.1 ≠ some redis.Nil then
    (r.1, r.2.1, w1)
  else if r.1 = some redis.Nil then
    (none, r.2.1, w1)
  else
    let q := s.db.Get key table r.2.1 w1.db
    let w2 : TierWorld σc σd := ⟨w1.cache, q.2.2, w1.calls ++ [⟨.db, .Get, [key], table⟩]⟩
    if q.1 ≠ none then (q.1, q.2.1, w2) else (none, q.2.1, w2)

/-- What the caller's `dest` slice holds after it was handed to a tier as the
single variadic argument `[slice dest]`: the tier worked on the same backing
array, so the caller sees the elements as the tier left them. -/
def storageWithCache.unpack {V : Type} (dest : List (GoAny V)) :
    List (GoAny V) → List (GoAny V)
  | [GoAny.slice elems] => elems
  | _ => dest

/-- The method `(*storageWithCache).GetMany`.  The source passes `dest`
without spreading it (`dest`, not `dest...`), so each tier receives one
variadic argument, the slice itself. -/
def storageWithCache.GetMany {σc σd V : Type} (s : storageWithCache σc σd V)
    (keys : List String) (table : String) (dest : List (GoAny V)) (w : TierWorld σc σd) :
    Option GoError × List (GoAny V) × TierWorld σc σd :=
  let r := s.cache.GetMany keys table [GoAny.slice dest] w.cache
  let d1 := storageWithCache.unpack dest r.2.1
  let w1 : TierWorld σc σd := ⟨r.2.2, w.db, w.calls ++ [⟨.cache, .GetMany, keys, table⟩]⟩
  if r.1 ≠ none ∧ r.1 ≠ some redis.Nil then
    (r.1, d1, w1)
  else if r.1 = some redis.Nil then
    (none, d1, w1)
  else
    let q := s.db.GetMany keys table [GoAny.slice d1] w1.db
    let d2 := storageWithCache.unpack d1 q.2.1
    let w2 : TierWorld σc σd := ⟨w1.cache, q.2.2, w1.calls ++ [⟨.db, .GetMany, keys, table⟩]⟩
    if q.1 ≠ none then (q.1, d2, w2) else (none, d2, w2)

/-- The method `(*storageWithCache).Save`.  The two functions handed to the
group are run one after the other, in the order of the source; both call
`s.cache.Save` with the same arguments. -/
def storageWithCache.Save {σc σd V : Type} (s : storageWithCache σc σd V)
    (key : String) (data : V) (table : String) (w : TierWorld σc σd) :
    Option GoError × TierWorld σc σd :=
  let r1 := s.cache.Save key data table w.cache
  let r2 := s.cache.Save key data table r1.2
  let w2 : TierWorld σc σd :=
    ⟨r2.2, w.db, w.calls ++ [⟨.cache, .Save, [key], table⟩, ⟨.cache, .Save, [key], table⟩]⟩
  let err := errgroup.Wait [r1.1, r2.1]
  if err ≠ none then (err, w2) else (none, w2)

/-- The method `(*storageWithCache).Delete`.  As in `Save`, both functions
handed to the group call the cache tier. -/
def storageWithCache.Delete {σc σd V : Type} (s : storageWithCache σc σd V)
    (key table : String) (w : TierWorld σc σd) : Option GoError × TierWorld σc σd :=
  let r1 := s.cache.Delete key table w.cache
  let r2 := s.cache.Delete key table r1.2
  let w2 : TierWorld σc σd :=
    ⟨r2.2, w.db, w.calls ++ [⟨.cache, .Delete, [key], table⟩, ⟨.cache, .Delete, [key], table⟩]⟩
  let err := errgroup.Wait [r1.1, r2.1]
  if err ≠ none then (err, w2) else (none, w2)

/-! ## The persistent stores (`internal/storage/database`, `internal/storage/sharding`) -/

/-- An argument bound to a placeholder of an SQL statement. -/
inductive SqlArg where
  | text (s : String)
  | bytea (b : Bytes)
  | anySlice (elems : List String)
  deriving DecidableEq, Repr

/-- A statement handed to the database: its text and the bound arguments. -/
structure SqlStmt where
  query : String
  args : List SqlArg
  deriving DecidableEq, Repr

/-- What `QueryRowContext` hands back: the result of `queryRow.Err()` and the
result of `queryRow.Scan(&data)` (the scanned bytes or the scan error, which
is `sql.ErrNoRows` when the query matched no row). -/
structure SqlRow where
  err : Option GoError
  scan : Except GoError Bytes

/-- The part of `sqlx` used by the unsharded store: the methods
`ExecContext(ctx, query, args...)`, `QueryRowContext(ctx, query, args...)` and
`QueryContext(ctx, query, args...)` of `*sqlx.DB`, and the package function
`sqlx.In(query, keys)` for a slice of strings, which returns the expanded
query and the flattened arguments.  The rows of `QueryContext` are given as
the list of what `rows.Scan(&data)` yields for each of them, in order. -/
structure SqlDB (δ : Type) where
  ExecContext : String → List SqlArg → δ → Option GoError × δ
  QueryRowContext : String → List SqlArg → δ → SqlRow × δ
  QueryContext : String → List SqlArg → δ → Except GoError (List (Except GoError Bytes)) × δ
  In : String → List String → Except GoError (String × List String)

/-- The world of the unsharded store: backend state and statements issued. -/
structure SqlWorld (δ : Type) where
  backend : δ
  stmts : List SqlStmt

/-- The struct `dbStorage`. -/
structure dbStorage (δ V : Type) where
  db : SqlDB δ
  serializer : MessagePackSerializer V

/-- The statement text of `(*dbStorage).Save` before the table is put in. -/
def dbStorage.upsertText : String :=
  "\n\t\tinsert into table (uid, data)\n\t\tvalues ($1, $2) on conflict (uid) do\n\tupdate\n\tset data = excluded.data;\n\t"

/-- The method `(*dbStorage).Save`.  The encoded buffer is built and the
statement is executed with `key` as its only argument. -/
def dbStorage.Save {δ V : Type} (d : dbStorage δ V) (key : String) (data : V)
    (table : String) (w : SqlWorld δ) : Option GoError × SqlWorld δ :=
  match d.serializer.Encode data with
  | .error err => (some (.errorString ("failed encode data: " ++ err.Error)), w)
  | .ok _buf =>
    let query := dbStorage.upsertText.replace "table" table
    let r := d.db.ExecContext query [SqlArg.text key] w.backend
    let w1 : SqlWorld δ := ⟨r.2, w.stmts ++ [⟨query, [SqlArg.text key]⟩]⟩
    match r.1 with
    | some err => (some (.errorString ("failed upsert data: " ++ err.Error)), w1)
    | none => (none, w1)

/-- The statement text of `(*dbStorage).Get` before the table is put in. -/
def dbStorage.selectText : String :=
  "\n\t\tselect data from table where uid = $1;\n\t"

/-- The method `(*dbStorage).Get`.  An error of `queryRow.Err()` is rewrapped;
an error of `queryRow.Scan` is returned as it is. -/
def dbStorage.Get {δ V : Type} (d : dbStorage δ V) (key table : String) (dest : GoAny V)
    (w : SqlWorld δ) : Option GoError × GoAny V × SqlWorld δ :=
  let query := dbStorage.selectText.replace "table" table
  let r := d.db.QueryRowContext query [SqlArg.text key] w.backend
  let w1 : SqlWorld δ := ⟨r.2, w.stmts ++ [⟨query, [SqlArg.text key]⟩]⟩
  match r.1.err with
  | some err => (some (.errorString ("failed get from db: " ++ err.Error)), dest, w1)
  | none =>
    match r.1.scan with
    | .error err => (some err, dest, w1)
    | .ok data =>
      let dec := d.serializer.Decode data dest
      match dec.1 with
      | some err => (some (.errorString ("failed decode data: " ++ err.Error)), dec.2, w1)
      | none => (none, dec.2, w1)

/-- The statement text of `(*dbStorage).GetMany` before the table is put in. -/
def dbStorage.selectManyText : String :=
  "select data from table where uid in (?);"

/-- The loop `for rows.Next()` of `(*dbStorage).GetMany` over the remaining
rows.  Each row is scanned and decoded into `dest[counter]`; the source never
assigns to `counter` after declaring it, so the same `counter` is handed to
the next turn.  An index outside `dest` is a runtime panic. -/
def dbStorage.GetMany.loop {V : Type} (ser : MessagePackSerializer V) (counter : Nat) :
    List (Except GoError Bytes) → List (GoAny V) →
    Outcome (Option GoError) × List (GoAny V)
  | [], dest => (.ret none, dest)
  | .error err :: _, dest => (.ret (some err), dest)
  | .ok data :: rows, dest =>
    match dest.get? counter with
    | none => (.panic "runtime error: index out of range", dest)
    | some target =>
      let dec := ser.Decode data target
      match dec.1 with
      | some err =>
        (.ret (some (.errorString ("failed decode data: " ++ err.Error))),
          dest.set counter dec.2)
      | none => dbStorage.GetMany.loop ser counter rows (dest.set counter dec.2)

/-- The method `(*dbStorage).GetMany`.  The arguments returned by `sqlx.In`
are handed to `QueryContext` as one argument (`params`, not `params...`). -/
def dbStorage.GetMany {δ V : Type} (d : dbStorage δ V) (keys : List String)
    (table : String) (dest : List (GoAny V)) (w : SqlWorld δ) :
    Outcome (Option GoError) × List (GoAny V) × SqlWorld δ :=
  let queryBase := dbStorage.selectManyText.replace "table" table
  match d.db.In queryBase keys with
  | .error err => (.ret (some (.errorString ("failed prepare query: " ++ err.Error))), dest, w)
  | .ok (query, params) =>
    let r := d.db.QueryContext query [SqlArg.anySlice params] w.backend
    let w1 : SqlWorld δ := ⟨r.2, w.stmts ++ [⟨query, [SqlArg.anySlice params]⟩]⟩
    match r.1 with
    | .error err => (.ret (some (.errorString ("failed get from db: " ++ err.Error))), dest, w1)
    | .ok rows =>
      let counter := 0
      let out := dbStorage.GetMany.loop d.serializer counter rows dest
      (out.1, out.2, w1)

/-- A statement handed to one shard of the cluster. -/
structure ShardStmt where
  shard : Int
  query : String
  args : List SqlArg
  deriving DecidableEq, Repr

/-- The part of `*sharding.Cluster` used by the sharded store:
`Shard(number).ExecContext(ctx, query, params...)` and
`Shard(number).QueryOneContext(ctx, pg.Scan(data), query, params...)`.  The
source hands `pg.Scan` the nil slice `data` by value, so the query cannot
write the row into `data`; only its error is kept. -/
structure ShardCluster (δ : Type) where
  ExecContext : Int → String → List SqlArg → δ → Option GoError × δ
  QueryOneContext : Int → String → List SqlArg → δ → Option GoError × δ

/-- The world of the sharded store: backend state and statements issued. -/
structure ShardWorld (δ : Type) where
  backend : δ
  stmts : List ShardStmt

/-- The struct `clusterStorage`.  The router `shardByKey` is a function value
and may panic. -/
structure clusterStorage (δ V : Type) where
  cluster : ShardCluster δ
  shardByKey : String → Outcome Int
  serializer : MessagePackSerializer V

/-- The statement text of `(*clusterStorage).Save` before the table is put in. -/
def clusterStorage.upsertText : String :=
  "\n\t\tinsert into ?SHARD.table (uid, data)\n\t\tvalues ($1, $2) on conflict (uid) do\n\t\tupdate\n\t\tset data = excluded.data;\n\t"

/-- The method `(*clusterStorage).Save`.  The router is called before the
statement is handed to the shard; when it panics nothing is sent. -/
def clusterStorage.Save {δ V : Type} (d : clusterStorage δ V) (key : String) (data : V)
    (table : String) (w : ShardWorld δ) : Outcome (Option GoError) × ShardWorld δ :=
  match d.serializer.Encode data with
  | .error err => (.ret (some (.errorString ("failed encode data: " ++ err.Error))), w)
  | .ok _buf =>
    match d.shardByKey key with
    | .panic msg => (.panic msg, w)
    | .ret shard =>
      let query := clusterStorage.upsertText.replace "table" table
      let r := d.cluster.ExecContext shard query [SqlArg.text key] w.backend
      let w1 : ShardWorld δ := ⟨r.2, w.stmts ++ [⟨shard, query, [SqlArg.text key]⟩]⟩
      match r.1 with
      | some err => (.ret (some (.errorString ("failed upsert data: " ++ err.Error))), w1)
      | none => (.ret none, w1)

/-- The statement text of `(*clusterStorage).Get` before the table is put in. -/
def clusterStorage.selectText : String :=
  "\n\t\tselect data from ?SHARD.table where uid = $1;\n\t"

/-- The method `(*clusterStorage).Get`.  Every error of the query is
rewrapped with `fmt.Errorf("failed get from db: %s", err)`; after a query
without error the still empty `data` is decoded. -/
def clusterStorage.Get {δ V : Type} (d : clusterStorage δ V) (key table : String)
    (dest : GoAny V) (w : ShardWorld δ) :
    Outcome (Option GoError) × GoAny V × ShardWorld δ :=
  let data : Bytes := []
  match d.shardByKey key with
  | .panic msg => (.panic msg, dest, w)
  | .ret shard =>
    let query := clusterStorage.selectText.replace "table" table
    let r := d.cluster.QueryOneContext shard query [SqlArg.text key] w.backend
    let w1 : ShardWorld δ := ⟨r.2, w.stmts ++ [⟨shard, query, [SqlArg.text key]⟩]⟩
    match r.1 with
    | some err => (.ret (some (.errorString ("failed get from db: " ++ err.Error))), dest, w1)
    | none =>
      let dec := d.serializer.Decode data dest
      match dec.1 with
      | some err =>
        (.ret (some (.errorString ("failed decode data: " ++ err.Error))), dec.2, w1)
      | none => (.ret none, dec.2, w1)

/-- The statement text of `(*clusterStorage).Delete` before the table is put
in, as the source spells it. -/
def clusterStorage.deleteText : String :=
  "delete from ?SHADR.table where uid = $1;"

/-- The method `(*clusterStorage).Delete`. -/
def clusterStorage.Delete {δ V : Type} (d : clusterStorage δ V) (key table : String)
    (w : ShardWorld δ) : Outcome (Option GoError) × ShardWorld δ :=
  match d.shardByKey key with
  | .panic msg => (.panic msg, w)
  | .ret shard =>
    let query := clusterStorage.deleteText.replace "table" table
    let r := d.cluster.ExecContext shard query [SqlArg.text key] w.backend
    let w1 : ShardWorld δ := ⟨r.2, w.stmts ++ [⟨shard, query, [SqlArg.text key]⟩]⟩
    match r.1 with
    | some err =>
      (.ret (some (.errorString ("failed remove data from db: " ++ err.Error))), w1)
    | none => (.ret none, w1)

/-- The method `(*clusterStorage).GetMany`: its body is
`panic("not implemented")`. -/
def clusterStorage.GetMany {δ V : Type} (_d : clusterStorage δ V) (_keys : List String)
    (_table : String) (dest : List (GoAny V)) (w : ShardWorld δ) :
    Outcome (Option GoError) × List (GoAny V) × ShardWorld δ :=
  (.panic "not implemented", dest, w)

/-! ## The shard router and the initializers
(`internal/storage/sharding/sharding.go`, `internal/config/config.go`) -/

/-- The bytes of a Go string holding the given text: its UTF-8 encoding, one
code point at a time. -/
def utf8EncodeCodePoint (c : Nat) : Bytes :=
  if c < 128 then [c]
  else if c < 2048 then [192 + c / 64, 128 + c % 64]
  else if c < 65536 then [224 + c / 4096, 128 + c / 64 % 64, 128 + c % 64]
  else [240 + c / 262144, 128 + c / 4096 % 64, 128 + c / 64 % 64, 128 + c % 64]

/-- The conversion `[]byte(s)`. -/
def stringBytes (s : String) : Bytes :=
  s.data.flatMap (fun c => utf8EncodeCodePoint c.toNat)

/-- The constant `offset32` of `hash/fnv`. -/
def fnv.offset32 : Nat := 2166136261

/-- The constant `prime32` of `hash/fnv`. -/
def fnv.prime32 : Nat := 16777619

/-- The function `fnv.New32a`: the state of a fresh hash. -/
def fnv.New32a : Nat := fnv.offset32

/-- The method `(*sum32a).Write` of `hash/fnv`: for each byte,
`hash ^= uint32(c)` and then `hash *= prime32` in `uint32` arithmetic. -/
def fnv.sum32a.Write (s : Nat) (data : Bytes) : Nat :=
  data.foldl (fun hash c => ((hash ^^^ c) * fnv.prime32) % 4294967296) s

/-- The conversion `uint32(n)` of an `int`: the low 32 bits. -/
def uint32 (n : Int) : Nat :=
  (n % 4294967296).toNat

/-- The closure `shardByKeyFn` built in `sharding.InitDB` for a shard count:
`int64(hf.Sum32() % uint32(shardsCount))` after writing the key to a fresh
FNV-1a hash.  The remainder by zero is a runtime panic.  (`int` is taken to
be 64 bits wide; the conversion to `int64` of a `uint32` loses nothing.) -/
def shardByKeyFn (shardsCount : Int) (key : String) : Outcome Int :=
  let hf := fnv.sum32a.Write fnv.New32a (stringBytes key)
  if uint32 shardsCount = 0 then .panic "runtime error: integer divide by zero"
  else .ret (Int.ofNat (hf % uint32 shardsCount))

/-- The struct `config.Config`; durations are in nanoseconds. -/
structure Config where
  DBHost : String
  DBPort : String
  Database : String
  DBUser : String
  DBPass : String
  DBTimeout : Int
  DBShardsCount : Int
  CachePort : String
  CacheTimeout : Int
  CacheExpirationTime : Int
  RateLimiterCapacity : Int

/-- The parsers of the standard library used by `InitConfig`:
`time.ParseDuration`, `strconv.Atoi` and `strconv.ParseInt(s, 10, 64)`. -/
structure Parsers where
  ParseDuration : String → Except GoError Int
  Atoi : String → Except GoError Int
  ParseInt : String → Except GoError Int

/-- One step `v, ok := os.LookupEnv(name); if !ok then return errors.New(msg)`. -/
def config.lookup (env : String → Option String) (name msg : String) :
    Except GoError String :=
  match env name with
  | some v => .ok v
  | none => .error (errors.New msg)

/-- One step `v, err := parse(s); if err != nil then return fmt.Errorf(msg, err)`. -/
def config.parse (r : Except GoError Int) (msg : String) : Except GoError Int :=
  match r with
  | .ok v => .ok v
  | .error err => .error (.errorString (msg ++ err.Error))

/-- The function `config.InitConfig` over an environment.  No value is
checked beyond being present and parsing. -/
def InitConfig (P : Parsers) (env : String → Option String) : Except GoError Config := do
  let pgHost ← config.lookup env "PG_HOST" "PG_ADDR not found"
  let pgPort ← config.lookup env "PG_PORT" "PG_PORT not found"
  let database ← config.lookup env "PG_DATABASE" "PG_WALLET_DATABASE not found"
  let pgUser ← config.lookup env "PG_USER" "PG_USER not found"
  let pgPass ← config.lookup env "PG_PASS" "PG_PASS not found"
  let pgTimeoutStr ← config.lookup env "PG_TIMEOUT" "PG_TIMEOUT not found"
  let pgTimeout ← config.parse (P.ParseDuration pgTimeoutStr) "failed parse pgsql timeout: "
  let pgShardsStr ← config.lookup env "PG_SHARDS_COUNT" "PG_SHARDS_COUNT not found"
  let pgShards ← config.parse (P.Atoi pgShardsStr) "failed parse pgsql shards count: "
  let redisPort ← config.lookup env "REDIS_PORT" "REDIS_PORT not found"
  let redisTimeoutStr ← config.lookup env "REDIS_TIMEOUT" "REDIS_TIMEOUT not found"
  let redisTimeout ← config.parse (P.ParseDuration redisTimeoutStr)
    "failed parse redis timeout: "
  let redisExpirationTimeStr ←
    config.lookup env "REDIS_EXPIRATION_TIME" "REDIS_EXPIRATION_TIME not found"
  let redisExpirationTime ← config.parse (P.ParseDuration redisExpirationTimeStr)
    "failed parse redis expiration time: "
  let rateLimiterCapacityStr ←
    config.lookup env "RATE_LIMITER_CAPACITY" "RATE_LIMITER_CAPACITY not found"
  let rateLimiterCapacity ← config.parse (P.ParseInt rateLimiterCapacityStr)
    "failed parse rate limiter capacity: "
  pure {
    DBHost := pgHost
    DBPort := pgPort
    DBUser := pgUser
    DBPass := pgPass
    Database := database
    DBTimeout := pgTimeout
    DBShardsCount := pgShards
    CachePort := redisPort
    CacheTimeout := redisTimeout
    CacheExpirationTime := redisExpirationTime
    RateLimiterCapacity := rateLimiterCapacity }

/-- The guards at the head of `sharding.NewCluster(dbs, nshards)` of the
library `github.com/go-pg/sharding/v8`, for the list of one server that
`sharding.InitDB` passes as `dbs`.  The call panics when `nshards` is zero,
when it is above the 2048 shards the library can address, and when it is
below the number of servers; otherwise it returns the cluster, given here as
`cluster`. -/
def sharding.NewCluster {δ : Type} (cluster : ShardCluster δ) (nshards : Int) :
    Outcome (ShardCluster δ) :=
  if nshards = 0 then .panic "at least on shard is required"
  else if 2048 < nshards then .panic "too many shards"
  else if nshards < 1 then .panic "number of shards must be greater or equal number of dbs"
  else .ret cluster

/-- The function `sharding.InitDB` from the point where its ping loop has
ended.  `NewCluster` is `sharding.NewCluster(dbs, nshards)` of the go-pg
library for the one connected server, which may panic.  The only `return`
of the source gives the store with a nil error; the shard count is handed to
the library and to `shardByKeyFn` unchecked. -/
def sharding.InitDB {δ V : Type} (NewCluster : Int → Outcome (ShardCluster δ))
    (lib : msgpack.Library V) (cfg : Config) :
    Outcome (clusterStorage δ V × Option GoError) :=
  match NewCluster cfg.DBShardsCount with
  | .panic msg => .panic msg
  | .ret cluster =>
    .ret (⟨cluster, shardByKeyFn cfg.DBShardsCount, NewMessagePackSerializer lib⟩, none)

/-! ## In-memory backends

Stand-ins for the external servers, used to run the stores on concrete
inputs. -/

/-- The sentinel `sql.ErrNoRows` of `database/sql`. -/
def sql.ErrNoRows : GoError := .external "sql: no rows in result set"

/-- An in-memory redis: `GET` of a missing key answers `redis.Nil`, `SET`
overwrites, `DEL` succeeds whether or not the key exists.  Expiry is not
modelled (no time passes). -/
def memRedis : RedisClient (String → Option Bytes) where
  Get := fun key st =>
    match st key with
    | some b => (.ok b, st)
    | none => (.error redis.Nil, st)
  Set := fun key value _ st => (none, Function.update st key (some value))
  Del := fun key st => (none, Function.update st key none)

/-- A codec on byte-string values: the encoding is the value itself, and
decoding writes through a pointer and rejects any other destination. -/
def rawSerializer : MessagePackSerializer Bytes where
  Encode := fun v => .ok v
  Decode := fun b dest =>
    match dest with
    | .ptr _ => (none, .ptr (some b))
    | .slice elems => (some (.external "msgpack: Decode(non-pointer)"), .slice elems)

/-- A decoder library on byte-string values: decoding writes the bytes through
a pointer, and panics on a destination that is not a pointer. -/
def rawLibrary : msgpack.Library Bytes where
  Encode := fun v => .ok v
  Decode := fun b dest =>
    match dest with
    | .ptr _ => (.ret none, .ptr (some b))
    | .slice elems => (.panic "reflect: call of reflect.Value.Elem on slice Value",
        .slice elems)

/-- The cache store of the source over the in-memory redis. -/
def memCache : cache (String → Option Bytes) Bytes :=
  ⟨memRedis, rawSerializer, 60⟩

/-- The read of one row of a key-value map tier. -/
def mapTier.Get {V : Type} (key table : String) (dest : GoAny V)
    (st : String × String → Option V) :
    Option GoError × GoAny V × (String × String → Option V) :=
  match st (key, table), dest with
  | some v, .ptr _ => (none, .ptr (some v), st)
  | some _, .slice elems => (some (.external "non-pointer destination"), .slice elems, st)
  | none, d => (some sql.ErrNoRows, d, st)

/-- The reads of several rows of a key-value map tier, in order. -/
def mapTier.GetMany {V : Type} (table : String) :
    List String → List (GoAny V) → (String × String → Option V) →
    Option GoError × List (GoAny V) × (String × String → Option V)
  | key :: keys, d :: ds, st =>
    match mapTier.Get key table d st with
    | (some err, d1, st1) => (some err, d1 :: ds, st1)
    | (none, d1, st1) =>
      let rest := mapTier.GetMany table keys ds st1
      (rest.1, d1 :: rest.2.1, rest.2.2)
  | _, ds, st => (none, ds, st)

/-- A persistent tier that is a key-value map from (key, table) to values: a
read of a missing row answers `sql.ErrNoRows`. -/
def mapTier (V : Type) : Storage (String × String → Option V) V where
  Get := mapTier.Get
  GetMany := fun keys table dest st => mapTier.GetMany table keys dest st
  Save := fun key data table st => (none, Function.update st (key, table) (some data))
  Delete := fun key table st => (none, Function.update st (key, table) none)

/-- A tier every call of which fails with a connection error. -/
def failingTier (V : Type) : Storage Unit V where
  Get := fun _ _ dest st => (some (.external "connection refused"), dest, st)
  GetMany := fun _ _ dest st => (some (.external "connection refused"), dest, st)
  Save := fun _ _ _ st => (some (.external "connection refused"), st)
  Delete := fun _ _ st => (some (.external "connection refused"), st)

/-- The tiered store over the in-memory cache store and a map tier. -/
def memStorage : storageWithCache (RedisWorld (String → Option Bytes))
    (String × String → Option Bytes) Bytes :=
  NewStorage memCache.toStorage (mapTier Bytes)

/-- The world in which neither tier holds any key and no call was made. -/
def emptyWorld : TierWorld (RedisWorld (String → Option Bytes))
    (String × String → Option Bytes) :=
  ⟨⟨fun _ => none, []⟩, fun _ => none, []⟩

/-- The sentinel `pg.ErrNoRows` of go-pg. -/
def pg.ErrNoRows : GoError := .external "pg: no rows in result set"

/-- An unsharded database whose queries answer the given rows, in order, and
whose single-row query matches no row. -/
def rowsDB (rows : List Bytes) : SqlDB Unit where
  ExecContext := fun _ _ st => (none, st)
  QueryRowContext := fun _ _ st => (⟨none, .error sql.ErrNoRows⟩, st)
  QueryContext := fun _ _ st => (.ok (rows.map Except.ok), st)
  In := fun query keys => .ok (query, keys)

/-- A cluster whose shards hold no row: every query answers `pg.ErrNoRows`. -/
def emptyCluster : ShardCluster Unit where
  ExecContext := fun _ _ _ st => (none, st)
  QueryOneContext := fun _ _ _ st => (some pg.ErrNoRows, st)

/-- The value of a non-empty run of decimal digits. -/
def demo.digits (cs : List Char) : Option Nat :=
  if cs ≠ [] ∧ cs.all (fun c => 48 ≤ c.toNat ∧ c.toNat ≤ 57) then
    some (cs.foldl (fun n c => 10 * n + (c.toNat - 48)) 0)
  else none

/-- A decimal integer parser: an optional sign and decimal digits, within
the range of `int64`. -/
def demo.Atoi (s : String) : Except GoError Int :=
  match s.data with
  | '-' :: cs =>
    match demo.digits cs with
    | some n =>
      if n ≤ 9223372036854775808 then .ok (-(n : Int))
      else .error (.external "value out of range")
    | none => .error (.external "invalid syntax")
  | '+' :: cs =>
    match demo.digits cs with
    | some n =>
      if n < 9223372036854775808 then .ok (n : Int)
      else .error (.external "value out of range")
    | none => .error (.external "invalid syntax")
  | cs =>
    match demo.digits cs with
    | some n =>
      if n < 9223372036854775808 then .ok (n : Int)
      else .error (.external "value out of range")
    | none => .error (.external "invalid syntax")

/-- A duration parser for whole seconds written as digits followed by `s`. -/
def demo.ParseDuration (s : String) : Except GoError Int :=
  match s.data.reverse with
  | 's' :: cs =>
    match demo.digits cs.reverse with
    | some n => .ok ((n : Int) * 1000000000)
    | none => .error (.external "time: invalid duration")
  | _ => .error (.external "time: invalid duration")

/-- The parsers used to run `InitConfig` on concrete environments. -/
def demo.parsers : Parsers :=
  ⟨demo.ParseDuration, demo.Atoi, demo.Atoi⟩

/-- An environment in which every variable read by `InitConfig` is set and
well formed, with the given text for `PG_SHARDS_COUNT`. -/
def demo.env (shards : String) : String → Option String := fun name =>
  List.lookup name [("PG_HOST", "postgres"), ("PG_PORT", "5432"), ("PG_DATABASE", "app"),
    ("PG_USER", "app"), ("PG_PASS", "secret"), ("PG_TIMEOUT", "5s"),
    ("PG_SHARDS_COUNT", shards), ("REDIS_PORT", "6379"), ("REDIS_TIMEOUT", "1s"),
    ("REDIS_EXPIRATION_TIME", "60s"), ("RATE_LIMITER_CAPACITY", "100")]

/-! ## Reference definitions, worded as the specification -/

/-- FNV-1a over 32 bits from a given hash value: for each byte in turn, the
hash is xor-ed with the byte and multiplied by the prime 16777619, modulo
2^32. -/
def Spec.fnv1a32From (h : Nat) : Bytes → Nat
  | [] => h
  | b :: rest => Spec.fnv1a32From (((h ^^^ b) * 16777619) % 2 ^ 32) rest

/-- FNV-1a-32 of a byte string, from the offset basis 2166136261. -/
def Spec.fnv1a32 (data : Bytes) : Nat :=
  Spec.fnv1a32From 2166136261 data

/-- The shard of a key for a shard count: FNV-1a-32 of the UTF-8 bytes of the
key, reduced modulo the count. -/
def Spec.ShardFor (key : String) (shardCount : Nat) : Nat :=
  Spec.fnv1a32 (stringBytes key) % shardCount

/-- The world in which `cache.GetMany` makes its read number `i` (counted
from 0) when every earlier read has returned nil: `keys[0]` is read in the
starting world and each read hands the world it leaves to the next one. -/
def Spec.worldBeforeRead {ρ V : Type} (c : cache ρ V) (table : String) :
    List String → List (GoAny V) → RedisWorld ρ → Nat → RedisWorld ρ
  | key :: keys, d :: ds, w, i + 1 =>
    Spec.worldBeforeRead c table keys ds (c.Get key table d w).2.2 i
  | _, _, w, _ => w

/-! ## Theorems -/

/-- C1: on the tiered store over the in-memory cache and a map tier that both
start empty, `Save(k, v, t)` succeeds for every key, value and table, and the
following `Get(k, t, dest)` does not: the cache hit, which puts `v` in
`dest`, is followed by a read of the persistent tier, which `Save` never
wrote, and `Get` returns `sql.ErrNoRows`. -/
theorem save_then_get_returns_error (key table : String) (v : Bytes) :
    (memStorage.Save key v table emptyWorld).1 = none ∧
    (memStorage.Get key table (.ptr none) (memStorage.Save key v table emptyWorld).2).1
      = some sql.ErrNoRows ∧
    (memStorage.Get key table (.ptr none) (memStorage.Save key v table emptyWorld).2).2.1
      = .ptr (some v) ∧
    (memStorage.Save key v table emptyWorld).2.db (key, table) = none := by
  simp [memStorage, NewStorage, storageWithCache.Save, storageWithCache.Get, cache.toStorage,
    cache.Save, cache.Get, memCache, memRedis, rawSerializer, mapTier, mapTier.Get,
    emptyWorld, errgroup.Wait, redis.Nil, sql.ErrNoRows]

/-- C2: on the tiered store over the cache store of the source and the
in-memory redis, with any persistent tier, serializer and starting world,
`Delete(k, t)` succeeds and the following `Get(k, t, dest)` returns the error
"failed get from redis: redis: nil" instead of nil: the cache store has
rewrapped the backend's `redis.Nil`, so the tiered `Get` does not recognise
the miss. -/
theorem delete_then_get_returns_error {σd V : Type} (ser : MessagePackSerializer V)
    (expire : Nat) (db : Storage σd V) (key table : String) (dest : GoAny V)
    (w : TierWorld (RedisWorld (String → Option Bytes)) σd) :
    ((NewStorage (cache.toStorage ⟨memRedis, ser, expire⟩) db).Delete key table w).1 = none ∧
    ((NewStorage (cache.toStorage ⟨memRedis, ser, expire⟩) db).Get key table dest
      ((NewStorage (cache.toStorage ⟨memRedis, ser, expire⟩) db).Delete key table w).2).1
      = some (.errorString "failed get from redis: redis: nil") := by
  simp [NewStorage, storageWithCache.Delete, storageWithCache.Get, cache.toStorage,
    cache.Delete, cache.Get, memRedis, errgroup.Wait, redis.Nil, GoError.Error]

/-- C3: whenever the cache tier's `Get` returns no error, the tiered `Get`
goes on to call the persistent tier's `Get` on the destination the cache
left, and its error, destination and persistent world are those of that
call; the calls made are the cache read followed by the persistent read. -/
theorem get_cache_hit_reads_db {σc σd V : Type} (s : storageWithCache σc σd V)
    (key table : String) (dest : GoAny V) (w : TierWorld σc σd)
    (hit : (s.cache.Get key table dest w.cache).1 = none) :
    (s.Get key table dest w).1
      = (s.db.Get key table (s.cache.Get key table dest w.cache).2.1 w.db).1 ∧
    (s.Get key table dest w).2.1
      = (s.db.Get key table (s.cache.Get key table dest w.cache).2.1 w.db).2.1 ∧
    (s.Get key table dest w).2.2.db
      = (s.db.Get key table (s.cache.Get key table dest w.cache).2.1 w.db).2.2 ∧
    (s.Get key table dest w).2.2.calls
      = w.calls ++ [⟨.cache, .Get, [key], table⟩, ⟨.db, .Get, [key], table⟩] := by
  simp only [storageWithCache.Get, hit]
  cases hq : (s.db.Get key table (s.cache.Get key table dest w.cache).2.1 w.db).1 <;> simp

/-- Witness of C3: the in-memory cache holds the key, the persistent tier
fails on every call, and the tiered `Get` reports the persistent failure. -/
theorem get_cache_hit_reads_db_witness :
    ((NewStorage memCache.toStorage (failingTier Bytes)).cache.Get "u1" "users" (.ptr none)
        (⟨⟨fun k => if k = "u1-users" then some [1] else none, []⟩, (), []⟩ :
          TierWorld (RedisWorld (String → Option Bytes)) Unit).cache).1 = none ∧
    ((NewStorage memCache.toStorage (failingTier Bytes)).Get "u1" "users" (.ptr none)
        ⟨⟨fun k => if k = "u1-users" then some [1] else none, []⟩, (), []⟩).1
      = some (.external "connection refused") := by
  have hit : ((NewStorage memCache.toStorage (failingTier Bytes)).cache.Get "u1" "users"
      (.ptr none) (⟨⟨fun k => if k = "u1-users" then some [1] else none, []⟩, (), []⟩ :
          TierWorld (RedisWorld (String → Option Bytes)) Unit).cache).1 = none := by
    simp [NewStorage, cache.toStorage, cache.Get, memCache, memRedis, rawSerializer]
  refine ⟨hit, ?_⟩
  rw [(get_cache_hit_reads_db _ "u1" "users" (.ptr none) _ hit).1]
  rfl

/-- C4: whenever the redis backend answers `redis.Nil` for the namespaced key,
the tiered `Get` over the cache store of the source returns the non-nil
error "failed get from redis: redis: nil"; the destination is left as it was
and only the cache tier is called. -/
theorem get_cache_miss_returns_error {ρ σd V : Type} (c : cache ρ V) (db : Storage σd V)
    (key table : String) (dest : GoAny V) (w : TierWorld (RedisWorld ρ) σd)
    (miss : (c.redisClient.Get (key ++ "-" ++ table) w.cache.backend).1 = .error redis.Nil) :
    ((NewStorage c.toStorage db).Get key table dest w).1
      = some (.errorString "failed get from redis: redis: nil") ∧
    ((NewStorage c.toStorage db).Get key table dest w).2.1 = dest ∧
    ((NewStorage c.toStorage db).Get key table dest w).2.2.db = w.db ∧
    ((NewStorage c.toStorage db).Get key table dest w).2.2.calls
      = w.calls ++ [⟨.cache, .Get, [key], table⟩] := by
  simp [NewStorage, storageWithCache.Get, cache.toStorage, cache.Get, miss, redis.Nil,
    GoError.Error]

/-- Witness of C4: the in-memory redis holds no key. -/
theorem get_cache_miss_returns_error_witness :
    (memCache.redisClient.Get ("u1" ++ "-" ++ "users") emptyWorld.cache.backend).1
      = .error redis.Nil ∧
    ((NewStorage memCache.toStorage (mapTier Bytes)).Get "u1" "users" (.ptr none)
        emptyWorld).1 = some (.errorString "failed get from redis: redis: nil") :=
  ⟨rfl, (get_cache_miss_returns_error memCache (mapTier Bytes) "u1" "users" (.ptr none)
    emptyWorld rfl).1⟩

/-- C5: the tiered `Save` and `Delete` call the cache tier twice and the
persistent tier not at all: the persistent world is untouched, the recorded
calls are two cache calls, and the returned error is the first error of the
two cache calls.  In particular, over the in-memory cache and a persistent
tier that fails on every call, `Save` and `Delete` return nil. -/
theorem save_delete_never_reach_db {σc σd V : Type} (s : storageWithCache σc σd V)
    (key : String) (data : V) (table : String) (w : TierWorld σc σd)
    (k t : String) (v : Bytes) :
    ((s.Save key data table w).2.db = w.db ∧
      (s.Save key data table w).2.calls
        = w.calls ++ [⟨.cache, .Save, [key], table⟩, ⟨.cache, .Save, [key], table⟩] ∧
      (s.Save key data table w).1
        = errgroup.Wait [(s.cache.Save key data table w.cache).1,
            (s.cache.Save key data table (s.cache.Save key data table w.cache).2).1]) ∧
    ((s.Delete key table w).2.db = w.db ∧
      (s.Delete key table w).2.calls
        = w.calls ++ [⟨.cache, .Delete, [key], table⟩, ⟨.cache, .Delete, [key], table⟩] ∧
      (s.Delete key table w).1
        = errgroup.Wait [(s.cache.Delete key table w.cache).1,
            (s.cache.Delete key table (s.cache.Delete key table w.cache).2).1]) ∧
    ((failingTier Bytes).Save k v t () = (some (.external "connection refused"), ()) ∧
      ((NewStorage memCache.toStorage (failingTier Bytes)).Save k v t
          ⟨⟨fun _ => none, []⟩, (), []⟩).1 = none) ∧
    ((failingTier Bytes).Delete k t () = (some (.external "connection refused"), ()) ∧
      ((NewStorage memCache.toStorage (failingTier Bytes)).Delete k t
          ⟨⟨fun _ => none, []⟩, (), []⟩).1 = none) := by
  refine ⟨⟨?_, ?_, ?_⟩, ⟨?_, ?_, ?_⟩, ⟨rfl, ?_⟩, ⟨rfl, ?_⟩⟩
  · simp only [storageWithCache.Save]; split <;> rfl
  · simp only [storageWithCache.Save]; split <;> rfl
  · simp only [storageWithCache.Save]; split
    · rfl
    · rename_i h; exact (not_not.mp h).symm
  · simp only [storageWithCache.Delete]; split <;> rfl
  · simp only [storageWithCache.Delete]; split <;> rfl
  · simp only [storageWithCache.Delete]; split
    · rfl
    · rename_i h; exact (not_not.mp h).symm
  · simp [NewStorage, storageWithCache.Save, cache.toStorage, cache.Save, memCache, memRedis,
      rawSerializer, errgroup.Wait]
  · simp [NewStorage, storageWithCache.Delete, cache.toStorage, cache.Delete, memCache,
      memRedis, errgroup.Wait]

/-- C6: whenever the cache tier's `Get` returns an error `e` other than
`redis.Nil`, the tiered `Get` returns `e`; the persistent tier is not called:
its world is unchanged and the only recorded call is the cache read. -/
theorem get_surfaces_hard_cache_error {σc σd V : Type} (s : storageWithCache σc σd V)
    (key table : String) (dest : GoAny V) (w : TierWorld σc σd) (e : GoError)
    (herr : (s.cache.Get key table dest w.cache).1 = some e) (hne : e ≠ redis.Nil) :
    (s.Get key table dest w).1 = some e ∧
    (s.Get key table dest w).2.1 = (s.cache.Get key table dest w.cache).2.1 ∧
    (s.Get key table dest w).2.2.db = w.db ∧
    (s.Get key table dest w).2.2.cache = (s.cache.Get key table dest w.cache).2.2 ∧
    (s.Get key table dest w).2.2.calls = w.calls ++ [⟨.cache, .Get, [key], table⟩] := by
  simp [storageWithCache.Get, herr, hne]

/-- Witness of C6: a cache tier whose every call fails with a connection
error, in front of a map tier. -/
theorem get_surfaces_hard_cache_error_witness :
    ((NewStorage (failingTier Bytes) (mapTier Bytes)).cache.Get "u1" "users" (.ptr none)
        (⟨(), fun _ => none, []⟩ : TierWorld Unit (String × String → Option Bytes)).cache).1
      = some (.external "connection refused") ∧
    GoError.external "connection refused" ≠ redis.Nil ∧
    ((NewStorage (failingTier Bytes) (mapTier Bytes)).Get "u1" "users" (.ptr none)
        ⟨(), fun _ => none, []⟩).1 = some (.external "connection refused") ∧
    ((NewStorage (failingTier Bytes) (mapTier Bytes)).Get "u1" "users" (.ptr none)
        ⟨(), fun _ => none, []⟩).2.2.calls = [⟨.cache, .Get, ["u1"], "users"⟩] :=
  ⟨rfl, by decide,
    (get_surfaces_hard_cache_error (NewStorage (failingTier Bytes) (mapTier Bytes))
      "u1" "users" (.ptr none) ⟨(), fun _ => none, []⟩ (.external "connection refused")
      rfl (by decide)).1,
    rfl⟩

/-- C7: whenever the redis backend fails with an error `e` for the namespaced
key, `redis.Nil` included, `cache.Get` returns the freshly built error
"failed get from redis: " followed by the message of `e`; that value is never
equal to `redis.Nil`, whatever `e` was. -/
theorem cache_get_rewraps_backend_error {ρ V : Type} (c : cache ρ V) (key table : String)
    (dest : GoAny V) (w : RedisWorld ρ) (e : GoError)
    (hfail : (c.redisClient.Get (key ++ "-" ++ table) w.backend).1 = .error e) :
    (c.Get key table dest w).1 = some (.errorString ("failed get from redis: " ++ e.Error)) ∧
    (c.Get key table dest w).1 ≠ some redis.Nil := by
  simp [cache.Get, hfail, redis.Nil]

/-- Witness of C7: a read of a key the in-memory redis does not hold. -/
theorem cache_get_rewraps_backend_error_witness :
    (memCache.redisClient.Get ("u1" ++ "-" ++ "users") (fun _ => none)).1
      = .error redis.Nil ∧
    (memCache.Get "u1" "users" (.ptr none) ⟨fun _ => none, []⟩).1
      = some (.errorString ("failed get from redis: " ++ redis.Nil.Error)) ∧
    (memCache.Get "u1" "users" (.ptr none) ⟨fun _ => none, []⟩).1 ≠ some redis.Nil :=
  ⟨rfl, cache_get_rewraps_backend_error memCache "u1" "users" (.ptr none)
    ⟨fun _ => none, []⟩ redis.Nil rfl⟩

/-- C8: the tiered `GetMany` over the cache store of the source, called with
the two keys "a" and "b", fails with the length-mismatch error for every
destination list, a list of two destinations included, and makes no backend
call; called with the one key "a" and no destination it is not rejected for
length and goes on to read the key from the backend. -/
theorem tiered_getMany_length_check_sees_one_dest {ρ σd V : Type} (c : cache ρ V)
    (db : Storage σd V) (table : String) (dest : List (GoAny V))
    (w : TierWorld (RedisWorld ρ) σd) :
    ((NewStorage c.toStorage db).GetMany ["a", "b"] table dest w).1
      = some (errors.New "len of keys not equal len of dest") ∧
    ((NewStorage c.toStorage db).GetMany ["a", "b"] table dest w).2.2.cache = w.cache ∧
    (memStorage.GetMany ["a"] "users" [] emptyWorld).1
      = some (.errorString
          "failed get item with key 'a': failed get from redis: redis: nil") ∧
    (memStorage.GetMany ["a"] "users" [] emptyWorld).2.2.cache.cmds
      = [RedisCmd.get "a-users"] := by
  refine ⟨?_, ?_, ?_, ?_⟩
  · simp [NewStorage, storageWithCache.GetMany, cache.toStorage, cache.GetMany, errors.New,
      redis.Nil]
  · simp [NewStorage, storageWithCache.GetMany, cache.toStorage, cache.GetMany, errors.New,
      redis.Nil]
  · simp [memStorage, NewStorage, storageWithCache.GetMany, cache.toStorage, cache.GetMany,
      cache.GetMany.loop, cache.Get, memCache, memRedis, emptyWorld, redis.Nil,
      GoError.Error]
  · simp [memStorage, NewStorage, storageWithCache.GetMany, cache.toStorage, cache.GetMany,
      cache.GetMany.loop, cache.Get, memCache, memRedis, emptyWorld, redis.Nil,
      GoError.Error]

/-- C9: for keys and destinations of different lengths `cache.GetMany`
returns the error "len of keys not equal len of dest" and leaves the
destinations and the world as they were: the backend state is unchanged and
no command is added to the record. -/
theorem cache_getMany_length_mismatch {ρ V : Type} (c : cache ρ V) (keys : List String)
    (table : String) (dest : List (GoAny V)) (w : RedisWorld ρ)
    (hlen : keys.length ≠ dest.length) :
    c.GetMany keys table dest w
      = (some (errors.New "len of keys not equal len of dest"), dest, w) := by
  simp [cache.GetMany, hlen]

/-- Witness of C9: two keys and one destination. -/
theorem cache_getMany_length_mismatch_witness :
    ["a", "b"].length ≠ [GoAny.ptr (none : Option Bytes)].length ∧
    (memCache.GetMany ["a", "b"] "users" [.ptr none] ⟨fun _ => none, []⟩).1
      = some (errors.New "len of keys not equal len of dest") ∧
    (memCache.GetMany ["a", "b"] "users" [.ptr none] ⟨fun _ => none, []⟩).2.2.cmds = [] :=
  ⟨by decide,
    by rw [cache_getMany_length_mismatch memCache ["a", "b"] "users" [.ptr none]
      ⟨fun _ => none, []⟩ (by decide)],
    by rw [cache_getMany_length_mismatch memCache ["a", "b"] "users" [.ptr none]
      ⟨fun _ => none, []⟩ (by decide)]⟩

/-- C10: the statements issued by the persistent `Save`, unsharded and
sharded: none when encoding fails (or, sharded, when the router panics), and
otherwise exactly one, the upsert text with the table put in, whose bound
arguments are the key alone; the encoded bytes are not among the arguments. -/
theorem persistent_save_binds_only_key {δ δs V : Type} (d : dbStorage δ V)
    (cs : clusterStorage δs V) (key : String) (data : V) (table : String)
    (w : SqlWorld δ) (ws : ShardWorld δs) :
    (d.Save key data table w).2.stmts
      = (match d.serializer.Encode data with
        | .error _ => w.stmts
        | .ok _ => w.stmts ++ [⟨dbStorage.upsertText.replace "table" table,
            [SqlArg.text key]⟩]) ∧
    (cs.Save key data table ws).2.stmts
      = (match cs.serializer.Encode data with
        | .error _ => ws.stmts
        | .ok _ =>
          match cs.shardByKey key with
          | .panic _ => ws.stmts
          | .ret shard => ws.stmts ++ [⟨shard,
              clusterStorage.upsertText.replace "table" table, [SqlArg.text key]⟩]) := by
  constructor
  · unfold dbStorage.Save
    cases d.serializer.Encode data with
    | error err => rfl
    | ok buf =>
      simp only
      split <;> rfl
  · unfold clusterStorage.Save
    cases cs.serializer.Encode data with
    | error err => rfl
    | ok buf =>
      cases cs.shardByKey key with
      | panic msg => rfl
      | ret shard =>
        simp only
        split <;> rfl

/-- The hash of `hash/fnv` and the reference FNV-1a-32 agree from every
starting value. -/
theorem fnv_write_eq_spec (data : Bytes) (h : Nat) :
    fnv.sum32a.Write h data = Spec.fnv1a32From h data := by
  induction data generalizing h with
  | nil => rfl
  | cons b rest ih =>
    simp only [fnv.sum32a.Write, List.foldl_cons, Spec.fnv1a32From]
    exact ih _

/-- The closure built for a shard count N > 0 that is not a multiple of 2^32
returns, for every key, a shard index i with 0 ≤ i < N. -/
theorem shardByKey_in_range (key : String) (N : Int) (hpos : 0 < N)
    (hmod : N % 4294967296 ≠ 0) :
    ∃ i : Int, shardByKeyFn N key = .ret i ∧ 0 ≤ i ∧ i < N := by
  have hn : ((uint32 N : Nat) : Int) = N % 4294967296 := by
    unfold uint32
    omega
  have hne : uint32 N ≠ 0 := by
    intro h0
    rw [h0] at hn
    exact hmod hn.symm
  have hlt : fnv.sum32a.Write fnv.New32a (stringBytes key) % uint32 N < uint32 N :=
    Nat.mod_lt _ (Nat.pos_of_ne_zero hne)
  refine ⟨Int.ofNat (fnv.sum32a.Write fnv.New32a (stringBytes key) % uint32 N), ?_, ?_, ?_⟩
  · simp [shardByKeyFn, hne]
  · exact Int.ofNat_nonneg _
  · have h1 : (Int.ofNat (fnv.sum32a.Write fnv.New32a (stringBytes key) % uint32 N))
        < ((uint32 N : Nat) : Int) := Int.ofNat_lt.mpr hlt
    omega

/-- What `sharding.InitDB` returns over the library's `NewCluster`: a store
only for a shard count from 1 to 2048, always with a nil error, and with the
router `shardByKeyFn` of that count. -/
theorem initDB_returns_checked_count {δ V : Type} (cluster : ShardCluster δ)
    (lib : msgpack.Library V) (cfg : Config) (st : clusterStorage δ V)
    (err : Option GoError)
    (hinit : sharding.InitDB (sharding.NewCluster cluster) lib cfg = .ret (st, err)) :
    1 ≤ cfg.DBShardsCount ∧ cfg.DBShardsCount ≤ 2048 ∧ err = none ∧
    st.shardByKey = shardByKeyFn cfg.DBShardsCount := by
  unfold sharding.InitDB sharding.NewCluster at hinit
  by_cases h0 : cfg.DBShardsCount = 0
  · simp [h0] at hinit
  · by_cases h1 : 2048 < cfg.DBShardsCount
    · simp [h0, h1] at hinit
    · by_cases h2 : cfg.DBShardsCount < 1
      · simp [h0, h1, h2] at hinit
      · simp only [h0, h1, h2, if_false, Outcome.ret.injEq, Prod.mk.injEq] at hinit
        obtain ⟨hst, herr⟩ := hinit
        refine ⟨by omega, by omega, herr.symm, ?_⟩
        rw [← hst]

/-- C11: for every key and every partition count N the shard router is
configured with (every N for which `sharding.InitDB` returns its store, the
router being built only after the library's `NewCluster` has returned), N is
positive and the shard index computed by `shardByKey` for the key is
returned, without a panic, and lies in [0, N). -/
theorem configured_shardByKey_in_range {δ V : Type} (cluster : ShardCluster δ)
    (lib : msgpack.Library V) (cfg : Config) (st : clusterStorage δ V)
    (err : Option GoError) (key : String)
    (hinit : sharding.InitDB (sharding.NewCluster cluster) lib cfg = .ret (st, err)) :
    0 < cfg.DBShardsCount ∧
    ∃ i : Int, st.shardByKey key = .ret i ∧ 0 ≤ i ∧ i < cfg.DBShardsCount := by
  obtain ⟨hlow, hhigh, _, hrouter⟩ := initDB_returns_checked_count cluster lib cfg st err hinit
  refine ⟨by omega, ?_⟩
  rw [hrouter]
  exact shardByKey_in_range key cfg.DBShardsCount (by omega) (by omega)

/-- Witness of C11: a configuration with four shards; the key "u1" goes to
shard 3. -/
theorem configured_shardByKey_in_range_witness :
    sharding.InitDB (sharding.NewCluster emptyCluster) rawLibrary
        ⟨"postgres", "5432", "app", "app", "secret", 5000000000, 4, "6379", 1000000000,
          60000000000, 100⟩
      = .ret (⟨emptyCluster, shardByKeyFn 4, NewMessagePackSerializer rawLibrary⟩, none) ∧
    ((0 : Int) < 4 ∧ ∃ i : Int, shardByKeyFn 4 "u1" = .ret i ∧ 0 ≤ i ∧ i < 4) ∧
    shardByKeyFn 4 "u1" = .ret 3 :=
  ⟨rfl,
    configured_shardByKey_in_range emptyCluster rawLibrary
      ⟨"postgres", "5432", "app", "app", "secret", 5000000000, 4, "6379", 1000000000,
        60000000000, 100⟩
      ⟨emptyCluster, shardByKeyFn 4, NewMessagePackSerializer rawLibrary⟩ none "u1" rfl,
    by decide⟩

/-- C12: for every key and every shard count N with 0 < N < 2^32 the router
returns FNV-1a-32 of the UTF-8 bytes of the key (offset basis 2166136261,
prime 16777619, arithmetic modulo 2^32) reduced modulo N: a function of the
key and N alone. -/
theorem shardByKey_eq_fnv1a (key : String) (N : Int) (hpos : 0 < N)
    (hlt : N < 4294967296) :
    shardByKeyFn N key = .ret (Int.ofNat (Spec.ShardFor key N.toNat)) := by
  have hn : uint32 N = N.toNat := by
    unfold uint32
    omega
  have hne : N.toNat ≠ 0 := by omega
  simp [shardByKeyFn, hn, hne, Spec.ShardFor, Spec.fnv1a32, fnv.New32a, fnv.offset32,
    fnv_write_eq_spec]

/-- Witness of C12: the key "u1" over four shards goes to shard 3. -/
theorem shardByKey_eq_fnv1a_witness :
    (0 : Int) < 4 ∧ (4 : Int) < 4294967296 ∧
    shardByKeyFn 4 "u1" = .ret (Int.ofNat (Spec.ShardFor "u1" (4 : Int).toNat)) ∧
    Spec.ShardFor "u1" (4 : Int).toNat = 3 :=
  ⟨by decide, by decide, shardByKey_eq_fnv1a "u1" 4 (by decide) (by decide), by decide⟩

/-- C13 (counterexample): in an environment where `PG_SHARDS_COUNT` is "0",
which parses to 0, `InitConfig` returns a configuration with
`DBShardsCount = 0` and no error; `sharding.InitDB` on that configuration
returns no error either: it panics in the library's `NewCluster`. -/
theorem initializers_return_no_error_for_zero_shards :
    demo.parsers.Atoi "0" = .ok 0 ∧
    ∃ cfg, InitConfig demo.parsers (demo.env "0") = .ok cfg ∧ cfg.DBShardsCount = 0 ∧
      (∃ msg, (sharding.InitDB (sharding.NewCluster emptyCluster) rawLibrary cfg :
        Outcome (clusterStorage Unit Bytes × Option GoError)) = .panic msg) ∧
      ¬ ∃ (st : clusterStorage Unit Bytes) (e : GoError),
        sharding.InitDB (sharding.NewCluster emptyCluster) rawLibrary cfg
          = .ret (st, some e) := by
  refine ⟨rfl, _, rfl, rfl, ⟨_, rfl⟩, ?_⟩
  rintro ⟨st, e, h⟩
  cases h

/-- C13 (amended): no initializer returns an error for a zero or negative
shard count, and no router is built for one.  Whenever every variable read
by `InitConfig` is set and the four parsed ones parse, with
`PG_SHARDS_COUNT` parsing to n ≤ 0, `InitConfig` returns the configuration
with `DBShardsCount = n` and no error, and `sharding.InitDB` on it panics in
the library's `NewCluster` before the router is built.  Whenever `InitDB`
returns its store, for any configuration, the error is nil, the shard count
is from 1 to 2048 and the router is `shardByKeyFn` of that count. -/
theorem initializers_leave_bad_shard_count_to_library {δ V : Type} (P : Parsers)
    (env : String → Option String)
    (host port database user pass timeoutStr shardsStr redisPort redisTimeoutStr
      expirationStr capacityStr : String)
    (timeout n redisTimeout expiration capacity : Int)
    (lib : msgpack.Library V) (cluster : ShardCluster δ)
    (h1 : env "PG_HOST" = some host) (h2 : env "PG_PORT" = some port)
    (h3 : env "PG_DATABASE" = some database) (h4 : env "PG_USER" = some user)
    (h5 : env "PG_PASS" = some pass) (h6 : env "PG_TIMEOUT" = some timeoutStr)
    (p6 : P.ParseDuration timeoutStr = .ok timeout)
    (h7 : env "PG_SHARDS_COUNT" = some shardsStr)
    (p7 : P.Atoi shardsStr = .ok n)
    (h8 : env "REDIS_PORT" = some redisPort)
    (h9 : env "REDIS_TIMEOUT" = some redisTimeoutStr)
    (p9 : P.ParseDuration redisTimeoutStr = .ok redisTimeout)
    (h10 : env "REDIS_EXPIRATION_TIME" = some expirationStr)
    (p10 : P.ParseDuration expirationStr = .ok expiration)
    (h11 : env "RATE_LIMITER_CAPACITY" = some capacityStr)
    (p11 : P.ParseInt capacityStr = .ok capacity)
    (hn : n ≤ 0) :
    InitConfig P env
      = .ok ⟨host, port, database, user, pass, timeout, n, redisPort, redisTimeout,
          expiration, capacity⟩ ∧
    (∃ msg, (sharding.InitDB (sharding.NewCluster cluster) lib
        ⟨host, port, database, user, pass, timeout, n, redisPort, redisTimeout,
          expiration, capacity⟩ : Outcome (clusterStorage δ V × Option GoError))
      = .panic msg) ∧
    ∀ (cfg : Config) (st : clusterStorage δ V) (err : Option GoError),
      sharding.InitDB (sharding.NewCluster cluster) lib cfg = .ret (st, err) →
        err = none ∧ 1 ≤ cfg.DBShardsCount ∧ cfg.DBShardsCount ≤ 2048 ∧
        st.shardByKey = shardByKeyFn cfg.DBShardsCount := by
  refine ⟨?_, ?_, ?_⟩
  · simp [InitConfig, config.lookup, config.parse, h1, h2, h3, h4, h5, h6, p6, h7, p7, h8,
      h9, p9, h10, p10, h11, p11, bind, Except.bind, pure, Except.pure]
  · by_cases h0 : n = 0
    · exact ⟨"at least on shard is required",
        by simp [sharding.InitDB, sharding.NewCluster, h0]⟩
    · have hhigh : ¬ 2048 < n := by omega
      have hlow : n < 1 := by omega
      exact ⟨"number of shards must be greater or equal number of dbs",
        by simp [sharding.InitDB, sharding.NewCluster, h0, hhigh, hlow]⟩
  · intro cfg st err hinit
    obtain ⟨hlow, hhigh, herr, hrouter⟩ :=
      initDB_returns_checked_count cluster lib cfg st err hinit
    exact ⟨herr, hlow, hhigh, hrouter⟩

/-- Witness of C13 (amended): the shard count "-3". -/
theorem initializers_leave_bad_shard_count_to_library_witness :
    demo.parsers.Atoi "-3" = .ok (-3) ∧ (-3 : Int) ≤ 0 ∧
    InitConfig demo.parsers (demo.env "-3")
      = .ok ⟨"postgres", "5432", "app", "app", "secret", 5000000000, -3, "6379",
          1000000000, 60000000000, 100⟩ ∧
    ∃ msg, (sharding.InitDB (sharding.NewCluster emptyCluster) rawLibrary
        ⟨"postgres", "5432", "app", "app", "secret", 5000000000, -3, "6379",
          1000000000, 60000000000, 100⟩ :
        Outcome (clusterStorage Unit Bytes × Option GoError)) = .panic msg :=
  ⟨rfl, by decide,
    (initializers_leave_bad_shard_count_to_library demo.parsers (demo.env "-3")
      "postgres" "5432" "app" "app" "secret" "5s" "-3" "6379" "1s" "60s" "100"
      5000000000 (-3) 1000000000 60000000000 100 rawLibrary emptyCluster
      rfl rfl rfl rfl rfl rfl rfl rfl rfl rfl rfl rfl rfl rfl rfl rfl (by decide)).1,
    (initializers_leave_bad_shard_count_to_library demo.parsers (demo.env "-3")
      "postgres" "5432" "app" "app" "secret" "5s" "-3" "6379" "1s" "60s" "100"
      5000000000 (-3) 1000000000 60000000000 100 rawLibrary emptyCluster
      rfl rfl rfl rfl rfl rfl rfl rfl rfl rfl rfl rfl rfl rfl rfl rfl (by decide)).2.1⟩

/-- The loop of the unsharded `GetMany`, entered with `counter = 0`, leaves
every destination after the first as it was. -/
theorem getMany_loop_keeps_tail {V : Type} (ser : MessagePackSerializer V)
    (rows : List (Except GoError Bytes)) (dest : List (GoAny V)) :
    (dbStorage.GetMany.loop ser 0 rows dest).2.drop 1 = dest.drop 1 := by
  induction rows generalizing dest with
  | nil => rfl
  | cons row rows ih =>
    cases row with
    | error err => rfl
    | ok data =>
      cases dest with
      | nil => rfl
      | cons d ds =>
        simp only [dbStorage.GetMany.loop, List.get?_cons_zero, List.set_cons_zero]
        split
        · rfl
        · rw [ih]
          rfl

/-- C14: the unsharded `GetMany` never advances `counter`.  Whatever the
backend, keys, rows and destinations, every destination after the first
comes back as it went in; and when the backend answers the two rows r0, r1
for the keys "a", "b", the two unset destinations come back as (r1, unset):
both rows were decoded into `dest[0]` and `dest[1]` received none. -/
theorem db_getMany_decodes_into_first_dest_only {δ V : Type} (d : dbStorage δ V)
    (keys : List String) (table : String) (dest : List (GoAny V)) (w : SqlWorld δ)
    (r0 r1 : Bytes) :
    (d.GetMany keys table dest w).2.1.drop 1 = dest.drop 1 ∧
    ((⟨rowsDB [r0, r1], rawSerializer⟩ : dbStorage Unit Bytes).GetMany ["a", "b"] "users"
        [.ptr none, .ptr none] ⟨(), []⟩).1 = .ret none ∧
    ((⟨rowsDB [r0, r1], rawSerializer⟩ : dbStorage Unit Bytes).GetMany ["a", "b"] "users"
        [.ptr none, .ptr none] ⟨(), []⟩).2.1 = [.ptr (some r1), .ptr none] := by
  refine ⟨?_, ?_, ?_⟩
  · simp only [dbStorage.GetMany]
    split
    · rfl
    · split
      · rfl
      · exact getMany_loop_keeps_tail d.serializer _ dest
  · simp [dbStorage.GetMany, rowsDB, rawSerializer, dbStorage.GetMany.loop]
  · simp [dbStorage.GetMany, rowsDB, rawSerializer, dbStorage.GetMany.loop]

/-- C15 (counterexample): the sharded `GetMany`, called with one key and one
destination, panics with "not implemented"; it returns no error value. -/
theorem cluster_getMany_panics_on_one_key :
    ((⟨emptyCluster, shardByKeyFn 4, rawSerializer⟩ : clusterStorage Unit Bytes).GetMany
        ["a"] "users" [.ptr none] ⟨(), []⟩).1 = .panic "not implemented" ∧
    ¬ ∃ e : Option GoError,
      ((⟨emptyCluster, shardByKeyFn 4, rawSerializer⟩ : clusterStorage Unit Bytes).GetMany
        ["a"] "users" [.ptr none] ⟨(), []⟩).1 = .ret e := by
  refine ⟨rfl, ?_⟩
  rintro ⟨e, he⟩
  cases he

/-- C15 (amended): for every store, key list, table, destination list and
world, `clusterStorage.GetMany` panics with the value "not implemented",
leaving the destinations and the world as they were; no error value is
returned to the caller. -/
theorem cluster_getMany_always_panics {δ V : Type} (d : clusterStorage δ V)
    (keys : List String) (table : String) (dest : List (GoAny V)) (w : ShardWorld δ) :
    d.GetMany keys table dest w = (.panic "not implemented", dest, w) := by
  rfl

/-- C16: the sharded `Get` rewraps whatever error the query gives, the
missing-row sentinel `pg.ErrNoRows` included, into a fresh error "failed get
from db: ..." that is not equal to `pg.ErrNoRows`; the unsharded `Get`
returns the scan error `sql.ErrNoRows` of a missing row as it is. -/
theorem sharded_get_rewraps_missing_row {δ δu V : Type} (d : clusterStorage δ V)
    (u : dbStorage δu V) (key table : String) (dest : GoAny V) (w : ShardWorld δ)
    (wu : SqlWorld δu) (shard : Int) (e : GoError)
    (hshard : d.shardByKey key = .ret shard)
    (hquery : (d.cluster.QueryOneContext shard
      (clusterStorage.selectText.replace "table" table) [SqlArg.text key] w.backend).1
        = some e)
    (hrow : (u.db.QueryRowContext (dbStorage.selectText.replace "table" table)
      [SqlArg.text key] wu.backend).1 = ⟨none, .error sql.ErrNoRows⟩) :
    (d.Get key table dest w).1
      = .ret (some (.errorString ("failed get from db: " ++ e.Error))) ∧
    (d.Get key table dest w).1 ≠ .ret (some pg.ErrNoRows) ∧
    (u.Get key table dest wu).1 = some sql.ErrNoRows := by
  refine ⟨?_, ?_, ?_⟩
  · simp [clusterStorage.Get, hshard, hquery]
  · simp [clusterStorage.Get, hshard, hquery, pg.ErrNoRows]
  · simp [dbStorage.Get, hrow]

/-- Witness of C16: a cluster and a database that hold no row. -/
theorem sharded_get_rewraps_missing_row_witness :
    ((⟨emptyCluster, shardByKeyFn 4, rawSerializer⟩ : clusterStorage Unit Bytes).Get
        "u1" "users" (.ptr none) ⟨(), []⟩).1
      = .ret (some (.errorString ("failed get from db: " ++ pg.ErrNoRows.Error))) ∧
    ((⟨emptyCluster, shardByKeyFn 4, rawSerializer⟩ : clusterStorage Unit Bytes).Get
        "u1" "users" (.ptr none) ⟨(), []⟩).1 ≠ .ret (some pg.ErrNoRows) ∧
    ((⟨rowsDB [], rawSerializer⟩ : dbStorage Unit Bytes).Get "u1" "users" (.ptr none)
        ⟨(), []⟩).1 = some sql.ErrNoRows :=
  sharded_get_rewraps_missing_row ⟨emptyCluster, shardByKeyFn 4, rawSerializer⟩
    ⟨rowsDB [], rawSerializer⟩ "u1" "users" (.ptr none) ⟨(), []⟩ ⟨(), []⟩ 3 pg.ErrNoRows
    (by decide) rfl rfl

/-- C18: `MessagePackSerializer.Decode` always returns to its caller.  When
the library's decoder panics it returns the non-nil error "cannot decode to
destination: " followed by the panic value; when the decoder returns an
error it returns that error; and it returns nil exactly when the decoder
returned nil without panicking. -/
theorem serializer_decode_never_panics {V : Type} (lib : msgpack.Library V) (r : Bytes)
    (destination : GoAny V) :
    (∀ msg, (lib.Decode r destination).1 = .panic msg →
      (serializer.Decode lib r destination).1
        = some (.errorString ("cannot decode to destination: " ++ msg))) ∧
    (∀ err, (lib.Decode r destination).1 = .ret (some err) →
      (serializer.Decode lib r destination).1 = some err) ∧
    ((serializer.Decode lib r destination).1 = none ↔
      (lib.Decode r destination).1 = .ret none) := by
  refine ⟨?_, ?_, ?_⟩
  · intro msg h
    simp [serializer.Decode, h]
  · intro err h
    simp [serializer.Decode, h]
  · cases h : (lib.Decode r destination).1 with
    | panic msg => simp [serializer.Decode, h]
    | ret e =>
      cases e with
      | none => simp [serializer.Decode, h]
      | some err => simp [serializer.Decode, h]

/-- Witness of C18: a decoder that panics on a destination that is not a
pointer and succeeds on a pointer. -/
theorem serializer_decode_never_panics_witness :
    (rawLibrary.Decode [1, 2] (.slice [])).1
      = .panic "reflect: call of reflect.Value.Elem on slice Value" ∧
    (serializer.Decode rawLibrary [1, 2] (.slice [])).1
      = some (.errorString
          "cannot decode to destination: reflect: call of reflect.Value.Elem on slice Value") ∧
    (rawLibrary.Decode [1, 2] (.ptr none)).1 = .ret none ∧
    (serializer.Decode rawLibrary [1, 2] (.ptr none)).1 = none :=
  ⟨rfl,
    (serializer_decode_never_panics rawLibrary [1, 2] (.slice [])).1 _ rfl,
    rfl,
    (serializer_decode_never_panics rawLibrary [1, 2] (.ptr none)).2.2.mpr rfl⟩

/-- A list splits in one way only around the first occurrence of an element. -/
theorem split_at_first_unique {α : Type} (a : α) :
    ∀ (l₁ l₂ r₁ r₂ : List α), a ∉ l₁ → a ∉ l₂ →
      l₁ ++ a :: r₁ = l₂ ++ a :: r₂ → l₁ = l₂ ∧ r₁ = r₂ := by
  intro l₁
  induction l₁ with
  | nil =>
    intro l₂ r₁ r₂ _ h₂ h
    cases l₂ with
    | nil => simpa using h
    | cons b l₂ =>
      simp only [List.nil_append, List.cons_append, List.cons.injEq] at h
      exact absurd (h.1 ▸ List.mem_cons_self _ _) h₂
  | cons x l₁ ih =>
    intro l₂ r₁ r₂ h₁ h₂ h
    cases l₂ with
    | nil =>
      simp only [List.nil_append, List.cons_append, List.cons.injEq] at h
      exact absurd (h.1 ▸ List.mem_cons_self _ _) h₁
    | cons b l₂ =>
      simp only [List.cons_append, List.cons.injEq] at h
      have hrec := ih l₂ r₁ r₂ (fun hm => h₁ (List.mem_cons_of_mem _ hm))
        (fun hm => h₂ (List.mem_cons_of_mem _ hm)) h.2
      exact ⟨by rw [h.1, hrec.1], hrec.2⟩

/-- The characters of a namespaced key. -/
theorem effectiveKey_data (key table : String) :
    (cache.effectiveKey key table).data = key.data ++ '-' :: table.data := by
  simp [cache.effectiveKey, String.data_append]

/-- C19 (counterexample): the two different pairs ("a-b", "c") and
("a", "b-c") have the same namespaced key "a-b-c", and a value saved in the
in-memory cache under the first pair is read back through the second. -/
theorem effectiveKey_collision :
    (("a-b", "c") : String × String) ≠ ("a", "b-c") ∧
    cache.effectiveKey "a-b" "c" = cache.effectiveKey "a" "b-c" ∧
    (memCache.Save "a-b" [7] "c" ⟨fun _ => none, []⟩).1 = none ∧
    (memCache.Get "a" "b-c" (.ptr none)
        (memCache.Save "a-b" [7] "c" ⟨fun _ => none, []⟩).2).1 = none ∧
    (memCache.Get "a" "b-c" (.ptr none)
        (memCache.Save "a-b" [7] "c" ⟨fun _ => none, []⟩).2).2.1 = .ptr (some [7]) := by
  refine ⟨by decide, by decide, ?_, ?_, ?_⟩
  · simp [cache.Save, memCache, memRedis, rawSerializer]
  · simp [cache.Save, cache.Get, memCache, memRedis, rawSerializer]
  · simp [cache.Save, cache.Get, memCache, memRedis, rawSerializer]

/-- C19 (amended): `Get`, `Save` and `Delete` of the cache store address the
backend under the namespaced key `key + "-" + table`, and for two different
pairs (key1, table1), (key2, table2) whose keys both contain no "-", or whose
tables both contain no "-", the namespaced keys differ. -/
theorem effectiveKey_injective_without_dash {ρ V : Type} (c : cache ρ V)
    (key table : String) (dest : GoAny V) (data : V) (w : RedisWorld ρ)
    (key1 table1 key2 table2 : String)
    (hfree : ('-' ∉ key1.data ∧ '-' ∉ key2.data) ∨ ('-' ∉ table1.data ∧ '-' ∉ table2.data))
    (hne : (key1, table1) ≠ (key2, table2)) :
    cache.effectiveKey key table = key ++ "-" ++ table ∧
    (c.Get key table dest w).2.2.cmds
      = w.cmds ++ [RedisCmd.get (cache.effectiveKey key table)] ∧
    (c.Delete key table w).2.cmds
      = w.cmds ++ [RedisCmd.del (cache.effectiveKey key table)] ∧
    (c.Save key data table w).2.cmds
      = (match c.serializer.Encode data with
        | .error _ => w.cmds
        | .ok buf => w.cmds ++ [RedisCmd.set (cache.effectiveKey key table) buf
            c.expireTime]) ∧
    cache.effectiveKey key1 table1 ≠ cache.effectiveKey key2 table2 := by
  refine ⟨rfl, ?_, ?_, ?_, ?_⟩
  · simp only [cache.Get, cache.effectiveKey]
    split
    · rfl
    · split <;> rfl
  · simp only [cache.Delete, cache.effectiveKey]
    split <;> rfl
  · simp only [cache.Save, cache.effectiveKey]
    cases c.serializer.Encode data with
    | error err => rfl
    | ok buf =>
      simp only
      split <;> rfl
  · intro heq
    have hdata := congrArg String.data heq
    rw [effectiveKey_data, effectiveKey_data] at hdata
    apply hne
    rcases hfree with ⟨hk1, hk2⟩ | ⟨ht1, ht2⟩
    · have hsplit := split_at_first_unique '-' _ _ _ _ hk1 hk2 hdata
      rw [Prod.mk.injEq]
      exact ⟨String.ext hsplit.1, String.ext hsplit.2⟩
    · have hrev := congrArg List.reverse hdata
      simp only [List.reverse_append, List.reverse_cons, List.append_assoc,
        List.singleton_append] at hrev
      have hsplit := split_at_first_unique '-' _ _ _ _
        (by simpa using ht1) (by simpa using ht2) hrev
      rw [Prod.mk.injEq]
      exact ⟨String.ext (List.reverse_injective hsplit.2),
        String.ext (List.reverse_injective hsplit.1)⟩

/-- Witness of C19 (amended): the key "a" in the tables "b" and "c". -/
theorem effectiveKey_injective_without_dash_witness :
    (('-' ∉ "a".data ∧ '-' ∉ "a".data) ∨ ('-' ∉ "b".data ∧ '-' ∉ "c".data)) ∧
    (("a", "b") : String × String) ≠ ("a", "c") ∧
    cache.effectiveKey "a" "b" ≠ cache.effectiveKey "a" "c" :=
  ⟨Or.inl ⟨by decide, by decide⟩, by decide,
    (effectiveKey_injective_without_dash memCache "a" "b" (.ptr none) [7]
      ⟨fun _ => none, []⟩ "a" "b" "a" "c" (Or.inl ⟨by decide, by decide⟩)
      (by decide)).2.2.2.2⟩

/-- C22: the sharded `Delete`, `Save` and `Get` all run on the shard
`shardByKey(key)` with the key as the only bound argument, but the statement
of `Delete` is built from the text "delete from ?SHADR.table where uid = $1;",
which does not contain the placeholder "?SHARD." that the texts of `Save` and
`Get` put in front of the table. -/
theorem sharded_delete_misspells_shard_placeholder {δ V : Type} (d : clusterStorage δ V)
    (key table : String) (data : V) (buf : Bytes) (dest : GoAny V) (w : ShardWorld δ)
    (shard : Int) (hshard : d.shardByKey key = .ret shard)
    (henc : d.serializer.Encode data = .ok buf) :
    (d.Delete key table w).2.stmts
      = w.stmts ++ [⟨shard, clusterStorage.deleteText.replace "table" table,
          [SqlArg.text key]⟩] ∧
    (d.Save key data table w).2.stmts
      = w.stmts ++ [⟨shard, clusterStorage.upsertText.replace "table" table,
          [SqlArg.text key]⟩] ∧
    (d.Get key table dest w).2.2.stmts
      = w.stmts ++ [⟨shard, clusterStorage.selectText.replace "table" table,
          [SqlArg.text key]⟩] ∧
    clusterStorage.deleteText = "delete from ?SHADR.table where uid = $1;" ∧
    ¬ List.IsInfix "?SHARD.".data clusterStorage.deleteText.data ∧
    List.IsInfix "?SHARD.table".data clusterStorage.upsertText.data ∧
    List.IsInfix "?SHARD.table".data clusterStorage.selectText.data := by
  refine ⟨?_, ?_, ?_, rfl, by decide, by decide, by decide⟩
  · simp only [clusterStorage.Delete, hshard]
    split <;> rfl
  · simp only [clusterStorage.Save, henc, hshard]
    split <;> rfl
  · simp only [clusterStorage.Get, hshard]
    split
    · rfl
    · split <;> rfl

/-- Witness of C22: the key "u1" of the table "users" over four shards. -/
theorem sharded_delete_misspells_shard_placeholder_witness :
    shardByKeyFn 4 "u1" = .ret 3 ∧
    ((⟨emptyCluster, shardByKeyFn 4, rawSerializer⟩ : clusterStorage Unit Bytes).Delete
        "u1" "users" ⟨(), []⟩).2.stmts
      = [⟨3, clusterStorage.deleteText.replace "table" "users", [SqlArg.text "u1"]⟩] ∧
    ((⟨emptyCluster, shardByKeyFn 4, rawSerializer⟩ : clusterStorage Unit Bytes).Save
        "u1" [7] "users" ⟨(), []⟩).2.stmts
      = [⟨3, clusterStorage.upsertText.replace "table" "users", [SqlArg.text "u1"]⟩] :=
  ⟨by decide,
    (sharded_delete_misspells_shard_placeholder
      (⟨emptyCluster, shardByKeyFn 4, rawSerializer⟩ : clusterStorage Unit Bytes)
      "u1" "users" [7] [7] (.ptr none) ⟨(), []⟩ 3 (by decide) rfl).1,
    (sharded_delete_misspells_shard_placeholder
      (⟨emptyCluster, shardByKeyFn 4, rawSerializer⟩ : clusterStorage Unit Bytes)
      "u1" "users" [7] [7] (.ptr none) ⟨(), []⟩ 3 (by decide) rfl).2.1⟩

/-- One `cache.Get` sends exactly one command, the read of the namespaced key. -/
theorem cache_get_cmds {ρ V : Type} (c : cache ρ V) (key table : String) (dest : GoAny V)
    (w : RedisWorld ρ) :
    (c.Get key table dest w).2.2.cmds
      = w.cmds ++ [RedisCmd.get (cache.effectiveKey key table)] := by
  simp only [cache.Get, cache.effectiveKey]
  split
  · rfl
  · split <;> rfl

/-- The loop of `cache.GetMany` on lists of equal length, when its first `n`
reads return nil: the first `n` destinations are as those reads left them;
if `n` is the number of keys the loop returns nil after reading every key in
order; and if read number `n` fails, the loop returns the error naming that
key after reading the keys up to it and no further. -/
theorem cache_getMany_loop_in_order {ρ V : Type} (c : cache ρ V) (table : String) :
    ∀ (keys : List String) (dest : List (GoAny V)) (w : RedisWorld ρ) (n : Nat),
      keys.length = dest.length → n ≤ keys.length →
      (∀ j < n, ∀ k d, keys[j]? = some k → dest[j]? = some d →
        (c.Get k table d (Spec.worldBeforeRead c table keys dest w j)).1 = none) →
      (∀ j < n, ∀ k d, keys[j]? = some k → dest[j]? = some d →
        (cache.GetMany.loop c table keys dest w).2.1[j]?
          = some (c.Get k table d (Spec.worldBeforeRead c table keys dest w j)).2.1) ∧
      (n = keys.length →
        (cache.GetMany.loop c table keys dest w).1 = none ∧
        (cache.GetMany.loop c table keys dest w).2.2.cmds
          = w.cmds ++ keys.map (fun k => RedisCmd.get (cache.effectiveKey k table))) ∧
      (∀ k d e, keys[n]? = some k → dest[n]? = some d →
        (c.Get k table d (Spec.worldBeforeRead c table keys dest w n)).1 = some e →
        (cache.GetMany.loop c table keys dest w).1
          = some (.errorString ("failed get item with key '" ++ k ++ "': " ++ e.Error)) ∧
        (cache.GetMany.loop c table keys dest w).2.2.cmds
          = w.cmds ++ (keys.take (n + 1)).map
              (fun k => RedisCmd.get (cache.effectiveKey k table))) := by
  intro keys
  induction keys with
  | nil =>
    intro dest w n hlen hn _
    cases dest with
    | cons d ds => simp at hlen
    | nil =>
      have hn0 : n = 0 := by simpa using hn
      subst hn0
      refine ⟨fun j hj => absurd hj (Nat.not_lt_zero j), fun _ => ?_, ?_⟩
      · simp [cache.GetMany.loop]
      · intro k d e hk
        simp at hk
  | cons key keys ih =>
    intro dest w n hlen hn hlead
    cases dest with
    | nil => simp at hlen
    | cons d ds =>
      have hlen1 : keys.length = ds.length := by simpa using hlen
      cases n with
      | zero =>
        refine ⟨fun j hj => absurd hj (Nat.not_lt_zero j), fun h0 => ?_, ?_⟩
        · simp at h0
        · intro k d1 e hk hd hread
          simp only [List.getElem?_cons_zero, Option.some.injEq] at hk hd
          subst hk
          subst hd
          simp only [Spec.worldBeforeRead] at hread
          simp only [cache.GetMany.loop, hread, cache_get_cmds]
          simp
      | succ m =>
        have h0 : (c.Get key table d w).1 = none := by
          have := hlead 0 (Nat.succ_pos m) key d (by simp) (by simp)
          simpa [Spec.worldBeforeRead] using this
        have hm : m ≤ keys.length := by simpa using hn
        have hrest := ih ds (c.Get key table d w).2.2 m hlen1 hm
          (fun j hj k d1 hk hd => by
            have := hlead (j + 1) (Nat.succ_lt_succ hj) k d1 (by simpa using hk)
              (by simpa using hd)
            simpa [Spec.worldBeforeRead] using this)
        obtain ⟨hdest, hall, hfail⟩ := hrest
        refine ⟨?_, ?_, ?_⟩
        · intro j hj k d1 hk hd
          cases j with
          | zero =>
            simp only [List.getElem?_cons_zero, Option.some.injEq] at hk hd
            subst hk
            subst hd
            simp [cache.GetMany.loop, h0, Spec.worldBeforeRead]
          | succ j =>
            simp only [List.getElem?_cons_succ] at hk hd
            have := hdest j (Nat.lt_of_succ_lt_succ hj) k d1 hk hd
            simpa [cache.GetMany.loop, h0, Spec.worldBeforeRead] using this
        · intro hfull
          have hfull1 : m = keys.length := by simpa using hfull
          obtain ⟨hnil, hcmds⟩ := hall hfull1
          simp only [cache.GetMany.loop, h0]
          refine ⟨hnil, ?_⟩
          rw [hcmds, cache_get_cmds]
          simp
        · intro k d1 e hk hd hread
          simp only [List.getElem?_cons_succ] at hk hd
          simp only [Spec.worldBeforeRead] at hread
          obtain ⟨herr, hcmds⟩ := hfail k d1 e hk hd hread
          simp only [cache.GetMany.loop, h0]
          refine ⟨herr, ?_⟩
          rw [hcmds, cache_get_cmds]
          simp

/-- C21: `cache.GetMany` on equally long keys and destinations reads the keys
in order.  When its first `n` reads return nil, the first `n` destinations
are as the reads of their own keys left them; if `n` is the number of keys,
`GetMany` returns nil and has read every key once, in order; and if read
number `n` is the first to fail, `GetMany` returns the error "failed get item
with key '<keys[n]>': ..." and has read the keys up to `keys[n]` and none
after it. -/
theorem cache_getMany_in_order {ρ V : Type} (c : cache ρ V) (table : String)
    (keys : List String) (dest : List (GoAny V)) (w : RedisWorld ρ) (n : Nat)
    (hlen : keys.length = dest.length) (hn : n ≤ keys.length)
    (hlead : ∀ j < n, ∀ k d, keys[j]? = some k → dest[j]? = some d →
      (c.Get k table d (Spec.worldBeforeRead c table keys dest w j)).1 = none) :
    (∀ j < n, ∀ k d, keys[j]? = some k → dest[j]? = some d →
      (c.GetMany keys table dest w).2.1[j]?
        = some (c.Get k table d (Spec.worldBeforeRead c table keys dest w j)).2.1) ∧
    (n = keys.length →
      (c.GetMany keys table dest w).1 = none ∧
      (c.GetMany keys table dest w).2.2.cmds
        = w.cmds ++ keys.map (fun k => RedisCmd.get (cache.effectiveKey k table))) ∧
    (∀ k d e, keys[n]? = some k → dest[n]? = some d →
      (c.Get k table d (Spec.worldBeforeRead c table keys dest w n)).1 = some e →
      (c.GetMany keys table dest w).1
        = some (.errorString ("failed get item with key '" ++ k ++ "': " ++ e.Error)) ∧
      (c.GetMany keys table dest w).2.2.cmds
        = w.cmds ++ (keys.take (n + 1)).map
            (fun k => RedisCmd.get (cache.effectiveKey k table))) := by
  have hloop : c.GetMany keys table dest w = cache.GetMany.loop c table keys dest w := by
    simp [cache.GetMany, hlen]
  rw [hloop]
  exact cache_getMany_loop_in_order c table keys dest w n hlen hn hlead

/-- Witness of C21: the in-memory redis holds "a-users" only; of the keys
"a", "b", "c" the first is read into its destination, the read of "b" fails
and is named in the error, and "c" is not read. -/
theorem cache_getMany_in_order_witness :
    ["a", "b", "c"].length = [GoAny.ptr (none : Option Bytes), .ptr none, .ptr none].length ∧
    (memCache.GetMany ["a", "b", "c"] "users" [.ptr none, .ptr none, .ptr none]
        ⟨fun k => if k = "a-users" then some [1] else none, []⟩).2.1[0]?
      = some (.ptr (some [1])) ∧
    (memCache.GetMany ["a", "b", "c"] "users" [.ptr none, .ptr none, .ptr none]
        ⟨fun k => if k = "a-users" then some [1] else none, []⟩).1
      = some (.errorString
          "failed get item with key 'b': failed get from redis: redis: nil") ∧
    (memCache.GetMany ["a", "b", "c"] "users" [.ptr none, .ptr none, .ptr none]
        ⟨fun k => if k = "a-users" then some [1] else none, []⟩).2.2.cmds
      = [RedisCmd.get "a-users", RedisCmd.get "b-users"] := by
  have hlead : ∀ j < 1, ∀ (k : String) (d : GoAny Bytes), ["a", "b", "c"][j]? = some k →
      [GoAny.ptr (none : Option Bytes), .ptr none, .ptr none][j]? = some d →
      (memCache.Get k "users" d (Spec.worldBeforeRead memCache "users" ["a", "b", "c"]
        [.ptr none, .ptr none, .ptr none]
        ⟨fun k => if k = "a-users" then some [1] else none, []⟩ j)).1 = none := by
    intro j hj k d hk hd
    have hj0 : j = 0 := by omega
    subst hj0
    simp only [List.getElem?_cons_zero, Option.some.injEq] at hk hd
    subst hk
    subst hd
    simp [Spec.worldBeforeRead, cache.Get, memCache, memRedis, rawSerializer]
  have hspec := cache_getMany_in_order memCache "users" ["a", "b", "c"]
    [.ptr none, .ptr none, .ptr none]
    ⟨fun k => if k = "a-users" then some [1] else none, []⟩ 1 rfl (by decide) hlead
  obtain ⟨hdest, _, hfail⟩ := hspec
  have h0 := hdest 0 (by decide) "a" (.ptr none) rfl rfl
  have h1 := hfail "b" (.ptr none) (.errorString "failed get from redis: redis: nil") rfl rfl
    (by simp [Spec.worldBeforeRead, cache.Get, memCache, memRedis, rawSerializer, redis.Nil,
      GoError.Error])
  refine ⟨rfl, ?_, ?_, ?_⟩
  · rw [h0]
    simp [Spec.worldBeforeRead, cache.Get, memCache, memRedis, rawSerializer]
  · rw [h1.1]
    simp [GoError.Error]
  · rw [h1.2]
    simp [cache.effectiveKey]

end Microservice
